import Mathlib

/-!
Shallow embedding of the ConnectSphere backend core (Go + SQL sources):
the connection-state machine (`internal/database/database.go` together with
the HTTP handlers in `internal/api/handlers.go`) and the ranked user search
(`SearchUsers` SQL query).  User identifiers (UUIDs in the source) are
modelled as opaque `Nat`s, timestamps as `Nat`s, and the relational tables
as Lean lists.  SQL row generation order is immaterial to the embedded
queries thanks to the schema's `UNIQUE(requester_id, addressee_id)`
constraint, which is carried as an explicit hypothesis where needed.
-/

namespace ConnectSphere

/-- Connection status constant `models.StatusPending = "pending"`. -/
def StatusPending : String := "pending"

/-- Connection status constant `models.StatusAccepted = "accepted"`. -/
def StatusAccepted : String := "accepted"

/-- `models.User`: a row of the `users` table. -/
structure User where
  ID             : Nat
  Username       : String
  DisplayName    : String
  Email          : String
  HashedPassword : String
  CreatedAt      : Nat
  UpdatedAt      : Nat
  deriving Repr, DecidableEq

/-- `models.UserPublic`: the non-sensitive projection of a user. -/
structure UserPublic where
  ID          : Nat
  Username    : String
  DisplayName : String
  CreatedAt   : Nat
  deriving Repr, DecidableEq

/-- `models.User.ToPublic`: drops email and password hash. -/
def User.toPublic (u : User) : UserPublic :=
  { ID := u.ID, Username := u.Username, DisplayName := u.DisplayName
    CreatedAt := u.CreatedAt }

/-- `models.UserConnection`: a row of the `user_connections` table. -/
structure UserConnection where
  ID          : Nat
  RequesterID : Nat
  AddresseeID : Nat
  Status      : String
  CreatedAt   : Nat
  UpdatedAt   : Nat
  deriving Repr, DecidableEq

/-- The two relational tables the core operates on. -/
structure AppState where
  users : List User
  conns : List UserConnection
  deriving Repr, DecidableEq

/-- The error bodies the handlers produce, keyed by HTTP status class and the
machine-readable `Error` code string.  `badRequest` carries the 400
(validation) responses, `conflict` the 409 responses, `notFound` the 404
responses and `internal` the 500 responses. -/
inductive ApiError where
  | badRequest (code : String)
  | conflict   (code : String)
  | notFound   (code : String)
  | internal   (code : String)
  deriving Repr, DecidableEq

/-- Storage calls a handler can issue, used to record the trace of database
accesses a handler performs. -/
inductive StorageOp where
  | getUserById     (id : Nat)
  | getConnection   (a b : Nat)
  | insertConnection (requesterID addresseeID : Nat)
  deriving Repr, DecidableEq

/-- `DB.GetUserByID`: `SELECT ... FROM users WHERE id = $1`. -/
def GetUserByID (s : AppState) (id : Nat) : Option User :=
  s.users.find? (fun u => u.ID == id)

/-- The `WHERE` clause of `DB.GetConnection`: an edge between the two users
in either direction. -/
def connBetween (a b : Nat) (c : UserConnection) : Bool :=
  (c.RequesterID == a && c.AddresseeID == b) ||
    (c.RequesterID == b && c.AddresseeID == a)

/-- `DB.GetConnection`: `SELECT ... FROM user_connections WHERE
(requester_id = $1 AND addressee_id = $2) OR (requester_id = $2 AND
addressee_id = $1)`. -/
def GetConnection (s : AppState) (requesterID addresseeID : Nat) :
    Option UserConnection :=
  s.conns.find? (connBetween requesterID addresseeID)

/-- `DB.CreateConnection`: `INSERT INTO user_connections (requester_id,
addressee_id, status) VALUES ($1, $2, 'pending')`.  The database generates
the row id and sets both timestamps to `NOW()`; those are supplied as the
`newId` and `now` parameters. -/
def CreateConnection (newId now : Nat) (s : AppState)
    (requesterID addresseeID : Nat) : AppState :=
  { s with conns := s.conns ++
      [{ ID := newId, RequesterID := requesterID, AddresseeID := addresseeID
         Status := StatusPending, CreatedAt := now, UpdatedAt := now }] }

/-- The `WHERE` clause of `DB.AcceptConnection`: the exact ordered pair with
status pending. -/
def acceptPred (requesterID addresseeID : Nat) (c : UserConnection) : Bool :=
  c.RequesterID == requesterID && c.AddresseeID == addresseeID &&
    c.Status == StatusPending

/-- `DB.AcceptConnection`: `UPDATE user_connections SET status = 'accepted',
updated_at = NOW() WHERE requester_id = $2 AND addressee_id = $3 AND
status = 'pending'`; zero rows affected is reported as an error (`none`). -/
def AcceptConnection (now : Nat) (s : AppState)
    (requesterID addresseeID : Nat) : Option AppState :=
  if s.conns.countP (acceptPred requesterID addresseeID) = 0 then
    none
  else
    some { s with conns := s.conns.map (fun c =>
      if acceptPred requesterID addresseeID c then
        { c with Status := StatusAccepted, UpdatedAt := now }
      else c) }

/-- The `WHERE` clause of `DB.RemoveConnection`: the pair in either
direction, restricted to accepted edges. -/
def removePred (userID friendID : Nat) (c : UserConnection) : Bool :=
  connBetween userID friendID c && c.Status == StatusAccepted

/-- `DB.RemoveConnection`: `DELETE FROM user_connections WHERE
((requester_id = $1 AND addressee_id = $2) OR (requester_id = $2 AND
addressee_id = $1)) AND status = 'accepted'`; zero rows affected is
reported as an error (`none`). -/
def RemoveConnection (s : AppState) (userID friendID : Nat) :
    Option AppState :=
  if s.conns.countP (removePred userID friendID) = 0 then
    none
  else
    some { s with conns := s.conns.filter (fun c => !removePred userID friendID c) }

/-- `DB.UpdateUser`: `UPDATE users SET display_name = $1, updated_at = NOW()
WHERE id = $2`; zero rows affected is reported as an error (`none`). -/
def UpdateUser (now : Nat) (s : AppState) (id : Nat) (displayName : String) :
    Option AppState :=
  if s.users.countP (fun u => u.ID == id) = 0 then
    none
  else
    some { s with users := s.users.map (fun u =>
      if u.ID == id then { u with DisplayName := displayName, UpdatedAt := now }
      else u) }

/-- The `sendConnectionRequest` handler.  Returns the handler outcome, the
resulting state, and the trace of storage operations performed, in order.
The self-request check runs before any storage access; then the addressee
existence check, the either-direction duplicate check, and the insert. -/
def sendConnectionRequest (newId now : Nat) (s : AppState)
    (requesterID addresseeID : Nat) :
    Except ApiError Unit × AppState × List StorageOp :=
  if requesterID = addresseeID then
    (.error (.badRequest "invalid_request"), s, [])
  else
    match GetUserByID s addresseeID with
    | none => (.error (.notFound "user_not_found"), s,
        [.getUserById addresseeID])
    | some _ =>
      match GetConnection s requesterID addresseeID with
      | some _ => (.error (.conflict "connection_exists"), s,
          [.getUserById addresseeID, .getConnection requesterID addresseeID])
      | none =>
        (.ok (), CreateConnection newId now s requesterID addresseeID,
          [.getUserById addresseeID, .getConnection requesterID addresseeID,
           .insertConnection requesterID addresseeID])

/-- The `acceptConnectionRequest` handler: the authenticated caller is the
addressee, the path parameter the requester; any `AcceptConnection` error is
surfaced as 404 `request_not_found`. -/
def acceptConnectionRequest (now : Nat) (s : AppState)
    (addresseeID requesterID : Nat) : Except ApiError Unit × AppState :=
  match AcceptConnection now s requesterID addresseeID with
  | some s2 => (.ok (), s2)
  | none => (.error (.notFound "request_not_found"), s)

/-- The `removeConnection` handler: any `RemoveConnection` error is surfaced
as 404 `friendship_not_found`. -/
def removeConnection (s : AppState) (userID friendID : Nat) :
    Except ApiError Unit × AppState :=
  match RemoveConnection s userID friendID with
  | some s2 => (.ok (), s2)
  | none => (.error (.notFound "friendship_not_found"), s)

/-- The `updateProfile` handler: the display name is written for the
authenticated user; any `UpdateUser` error — including the zero-rows
"user not found" case — is surfaced as 500 `internal_error`. -/
def updateProfile (now : Nat) (s : AppState) (userID : Nat)
    (displayName : String) : Except ApiError Unit × AppState :=
  match UpdateUser now s userID displayName with
  | some s2 => (.ok (), s2)
  | none => (.error (.internal "internal_error"), s)

/-- The limit selection of the `searchUsers` handler: default 20; a supplied
value is used only when it parses and lies in 1..100, otherwise the default
is silently kept.  An absent or unparseable parameter is `none`. -/
def searchLimit (limitParam : Option Int) : Nat :=
  match limitParam with
  | none => 20
  | some n => if 0 < n && n ≤ 100 then n.toNat else 20

/-- SQL `LOWER` on a character list. -/
def lower (l : List Char) : List Char := l.map Char.toLower

/-- Tests a predicate on a character list and on each of its successive
tails: the search for a position at which the remainder of a `LIKE` pattern
can match after a `%` wildcard. -/
def tryDrops (f : List Char → Bool) : List Char → Bool
  | [] => f []
  | x :: s2 => f (x :: s2) || tryDrops f s2

/-- SQL `LIKE` pattern matching over character lists: `%` matches any
(possibly empty) run of characters, `_` matches any single character, and a
backslash escapes the following pattern character (the Postgres default
escape character). -/
def likeMatch : List Char → List Char → Bool
  | [], s => s.isEmpty
  | p :: ps, s =>
    if p = '%' then
      tryDrops (likeMatch ps) s
    else if p = '\\' then
      (match ps, s with
       | c :: ps2, x :: s2 => x == c && likeMatch ps2 s2
       | _, _ => false)
    else if p = '_' then
      (match s with
       | [] => false
       | _ :: s2 => likeMatch ps s2)
    else
      (match s with
       | [] => false
       | x :: s2 => x == p && likeMatch ps s2)

/-- `LOWER(field) = LOWER($1)` of the `SearchUsers` query. -/
def lowerEq (q f : String) : Bool := lower f.toList == lower q.toList

/-- `LOWER(field) LIKE LOWER($1) || '%'` of the `SearchUsers` query. -/
def likeStarts (q f : String) : Bool :=
  likeMatch (lower q.toList ++ ['%']) (lower f.toList)

/-- `LOWER(field) LIKE '%' || LOWER($1) || '%'` of the `SearchUsers`
query. -/
def likeContains (q f : String) : Bool :=
  likeMatch ('%' :: (lower q.toList ++ ['%'])) (lower f.toList)

/-- The `CASE` ranking expression of `DB.SearchUsers`. -/
def rank (q : String) (u : UserPublic) : Nat :=
  if lowerEq q u.Username || lowerEq q u.DisplayName then 1
  else if likeStarts q u.Username || likeStarts q u.DisplayName then 2
  else if likeContains q u.Username || likeContains q u.DisplayName then 3
  else 4

/-- The `WHERE` clause of `DB.SearchUsers`. -/
def searchWhere (q : String) (u : User) : Bool :=
  likeContains q u.Username || likeContains q u.DisplayName

/-- The `ORDER BY` key of `DB.SearchUsers`: rank ascending, then the
exact-username flag, the exact-display-name flag, `LENGTH(username)`,
`LENGTH(display_name)`, and finally `username`, lexicographically
combined. -/
def sortKey (q : String) (u : UserPublic) :
    Nat ×ₗ Nat ×ₗ Nat ×ₗ Nat ×ₗ Nat ×ₗ String :=
  toLex (rank q u,
    toLex ((if lowerEq q u.Username then 0 else 1),
      toLex ((if lowerEq q u.DisplayName then 0 else 1),
        toLex (u.Username.length,
          toLex (u.DisplayName.length, u.Username)))))

/-- The row order produced by the `ORDER BY` of `DB.SearchUsers`. -/
def sortLE (q : String) (a b : UserPublic) : Prop := sortKey q a ≤ sortKey q b

instance (q : String) : DecidableRel (sortLE q) := fun a b =>
  inferInstanceAs (Decidable (sortKey q a ≤ sortKey q b))

/-- `DB.SearchUsers`: the rows matching the `WHERE` clause, projected to the
public fields, in `ORDER BY` order, capped by `LIMIT`. -/
def SearchUsers (q : String) (limit : Nat) (users : List User) :
    List UserPublic :=
  (List.insertionSort (sortLE q)
      ((users.filter (searchWhere q)).map User.toPublic)).take limit

/-- The `searchUsers` handler: rejects an empty query with 400, otherwise
runs `DB.SearchUsers` with the effective limit. -/
def searchUsers (s : AppState) (q : String) (limitParam : Option Int) :
    Except ApiError (List UserPublic) :=
  if q = "" then .error (.badRequest "invalid_request")
  else .ok (SearchUsers q (searchLimit limitParam) s.users)

/-- Literal prefix test on character lists, following the specification's
wording "the query is a case-insensitive prefix of the field" (the query
taken verbatim, no wildcards). -/
def litStarts : List Char → List Char → Bool
  | [], _ => true
  | _ :: _, [] => false
  | c :: q, x :: s => x == c && litStarts q s

/-- Literal substring test on character lists, following the
specification's wording "case-insensitive substring match" (the query taken
verbatim, no wildcards). -/
def litContains (q : List Char) : List Char → Bool
  | [] => litStarts q []
  | x :: s => litStarts q (x :: s) || litContains q s

/-- Matching as the specification words it: the query is a literal
case-insensitive substring of the username or of the display name. -/
def specMatch (q username displayName : String) : Bool :=
  litContains (lower q.toList) (lower username.toList) ||
    litContains (lower q.toList) (lower displayName.toList)

/-- The ranking tiers as the specification words them: 1 for an exact
case-insensitive match on username or display name, 2 for a literal
case-insensitive prefix match, 3 for any literal substring match, 4
otherwise (stated unreachable for returned rows). -/
def specTier (q : String) (u : UserPublic) : Nat :=
  if lowerEq q u.Username || lowerEq q u.DisplayName then 1
  else if litStarts (lower q.toList) (lower u.Username.toList) ||
          litStarts (lower q.toList) (lower u.DisplayName.toList) then 2
  else if litContains (lower q.toList) (lower u.Username.toList) ||
          litContains (lower q.toList) (lower u.DisplayName.toList) then 3
  else 4

/-- The result ordering the specification claims: tier ascending, then
exact-username matches before exact-display-name matches, then ascending
username length, ascending display-name length, and lexicographic order of
username. -/
def specKey (q : String) (u : UserPublic) :
    Nat ×ₗ Nat ×ₗ Nat ×ₗ Nat ×ₗ Nat ×ₗ String :=
  toLex (specTier q u,
    toLex ((if lowerEq q u.Username then 0 else 1),
      toLex ((if lowerEq q u.DisplayName then 0 else 1),
        toLex (u.Username.length,
          toLex (u.DisplayName.length, u.Username)))))

/-- The result order the specification claims for `search`. -/
def specLE (q : String) (a b : UserPublic) : Prop := specKey q a ≤ specKey q b

instance (q : String) : DecidableRel (specLE q) := fun a b =>
  inferInstanceAs (Decidable (specKey q a ≤ specKey q b))

/-- A query free of `LIKE` metacharacters (after lowercasing): no `%`
wildcard, no `_` wildcard, no escape backslash.  For such queries the
`LIKE`-based tests in the source coincide with the literal tests the
specification words. -/
def cleanQ (q : List Char) : Prop := ∀ c ∈ q, c ≠ '%' ∧ c ≠ '_' ∧ c ≠ '\\'

instance (q : List Char) : Decidable (cleanQ q) :=
  inferInstanceAs (Decidable (∀ c ∈ q, c ≠ '%' ∧ c ≠ '_' ∧ c ≠ '\\'))

/-- A sample user for concrete instantiations. -/
def demoUserA : User :=
  { ID := 1, Username := "alice", DisplayName := "Alice", Email := "a@x.io"
    HashedPassword := "h1", CreatedAt := 0, UpdatedAt := 0 }

/-- A second sample user for concrete instantiations. -/
def demoUserB : User :=
  { ID := 2, Username := "bob", DisplayName := "Bob", Email := "b@x.io"
    HashedPassword := "h2", CreatedAt := 0, UpdatedAt := 0 }

/-- Two users, no edges. -/
def demoS0 : AppState := { users := [demoUserA, demoUserB], conns := [] }

/-- Two users with a pending request from user 1 to user 2. -/
def demoPending : AppState :=
  { users := [demoUserA, demoUserB]
    conns := [{ ID := 7, RequesterID := 1, AddresseeID := 2
                Status := StatusPending, CreatedAt := 3, UpdatedAt := 3 }] }

/-- Two users with an accepted friendship between user 1 and user 2. -/
def demoAccepted : AppState :=
  { users := [demoUserA, demoUserB]
    conns := [{ ID := 7, RequesterID := 1, AddresseeID := 2
                Status := StatusAccepted, CreatedAt := 3, UpdatedAt := 4 }] }

/-- The sample user of the specification's search scenario. -/
def demoJohn : User :=
  { ID := 11, Username := "john_doe", DisplayName := "John Doe"
    Email := "john@x.io", HashedPassword := "h3", CreatedAt := 0
    UpdatedAt := 0 }

/-- The second sample user of the specification's search scenario. -/
def demoJane : User :=
  { ID := 12, Username := "jane_smith", DisplayName := "Jane Smith"
    Email := "jane@x.io", HashedPassword := "h4", CreatedAt := 0
    UpdatedAt := 0 }

/-- The user table of the specification's search scenario. -/
def demoSearchUsers : List User := [demoJohn, demoJane]

/-- A user whose name contains a `LIKE` metacharacter. -/
def demoPct : User :=
  { ID := 13, Username := "a%", DisplayName := "a%", Email := "p@x.io"
    HashedPassword := "h5", CreatedAt := 0, UpdatedAt := 0 }

/-- A user whose name contains no `LIKE` metacharacter. -/
def demoPlain : User :=
  { ID := 14, Username := "b", DisplayName := "b", Email := "q@x.io"
    HashedPassword := "h6", CreatedAt := 0, UpdatedAt := 0 }

/-- Both directions of `connBetween` test the same unordered pair. -/
theorem connBetween_comm (a b : Nat) (c : UserConnection) :
    connBetween b a c = connBetween a b c := by
  simp [connBetween, Bool.or_comm]

/-- C9: `sendRequest(A,A)` always fails with the 400 validation error
`invalid_request`, leaves the state unchanged, and performs no storage
operation at all (empty trace), whatever the state holds. -/
theorem sendRequest_self_rejected (newId now : Nat) (s : AppState) (A : Nat) :
    sendConnectionRequest newId now s A A =
      (.error (.badRequest "invalid_request"), s, []) := by
  simp [sendConnectionRequest]

/-- C5: the public projection of a user is independent of the email and the
password credential, and so is the entire search result list: public views
carry only identifier, username, display name and creation timestamp. -/
theorem toPublic_never_exposes_credentials :
    (∀ (u : User) (e p : String),
        User.toPublic { u with Email := e, HashedPassword := p } = u.toPublic)
    ∧ ∀ (q : String) (limit : Nat) (users : List User) (f g : User → String),
        SearchUsers q limit
            (users.map fun u => { u with Email := f u, HashedPassword := g u })
          = SearchUsers q limit users := by
  refine ⟨fun u e p => rfl, fun q limit users f g => ?_⟩
  have h1 : searchWhere q ∘ (fun u : User =>
      { u with Email := f u, HashedPassword := g u }) = searchWhere q := by
    funext u; rfl
  have h2 : User.toPublic ∘ (fun u : User =>
      { u with Email := f u, HashedPassword := g u }) = User.toPublic := by
    funext u; rfl
  unfold SearchUsers
  rw [List.filter_map, h1, List.map_map, h2]

/-- C7 counterexample: on a state with no users, `updateProfile` reports the
500 `internal_error` response — an internal-error kind, not the not-found
kind the claim requires. -/
theorem updateProfile_missing_user_is_internal_error :
    updateProfile 0 { users := [], conns := [] } 1 "x"
        = (.error (.internal "internal_error"), { users := [], conns := [] })
    ∧ ApiError.internal "internal_error" ≠ ApiError.notFound "user_not_found" := by
  exact ⟨rfl, by decide⟩

/-- C7 amended: when the user id resolves to no row, the storage layer
`UpdateUser` reports the zero-rows case as an error (never silent success),
but the `updateProfile` handler surfaces it as the 500 `internal_error`
response, not as a not-found error; the state is unchanged. -/
theorem updateProfile_zero_rows (now : Nat) (s : AppState) (id : Nat)
    (d : String) (h : ∀ u ∈ s.users, u.ID ≠ id) :
    UpdateUser now s id d = none
    ∧ updateProfile now s id d = (.error (.internal "internal_error"), s) := by
  have hc : s.users.countP (fun u => u.ID == id) = 0 := by
    rw [List.countP_eq_zero]
    intro u hu
    simp [h u hu]
  exact ⟨by simp [UpdateUser, hc], by simp [updateProfile, UpdateUser, hc]⟩

/-- Witness for the amended C7 at a concrete empty state. -/
theorem updateProfile_zero_rows_witness :
    UpdateUser 0 { users := [], conns := [] } 1 "x" = none
    ∧ updateProfile 0 { users := [], conns := [] } 1 "x"
        = (.error (.internal "internal_error"), { users := [], conns := [] }) :=
  updateProfile_zero_rows 0 { users := [], conns := [] } 1 "x" (by simp)

/-- C1: once `sendRequest(A,B)` has succeeded, both a subsequent
`sendRequest(B,A)` and a repeated `sendRequest(A,B)` fail with the 409
conflict `connection_exists`, insert no new edge (the state is returned
unchanged), and exactly one connection record exists between the unordered
pair `(A,B)`. -/
theorem sendRequest_conflict_after_success
    (newId now newId2 now2 newId3 now3 : Nat) (s : AppState) (A B : Nat)
    (uA : User) (hA : GetUserByID s A = some uA)
    (hok : (sendConnectionRequest newId now s A B).1 = .ok ()) :
    sendConnectionRequest newId2 now2
        (sendConnectionRequest newId now s A B).2.1 B A
      = (.error (.conflict "connection_exists"),
         (sendConnectionRequest newId now s A B).2.1,
         [.getUserById A, .getConnection B A])
    ∧ sendConnectionRequest newId3 now3
        (sendConnectionRequest newId now s A B).2.1 A B
      = (.error (.conflict "connection_exists"),
         (sendConnectionRequest newId now s A B).2.1,
         [.getUserById B, .getConnection A B])
    ∧ ((sendConnectionRequest newId now s A B).2.1).conns.countP
        (connBetween A B) = 1 := by
  by_cases hAB : A = B
  · simp [sendConnectionRequest, hAB] at hok
  · cases hB : GetUserByID s B with
    | none => simp [sendConnectionRequest, hAB, hB] at hok
    | some uB =>
      cases hconn : GetConnection s A B with
      | some c => simp [sendConnectionRequest, hAB, hB, hconn] at hok
      | none =>
        have hBA' : ¬(B = A) := fun h => hAB h.symm
        have hs1 : (sendConnectionRequest newId now s A B).2.1
            = CreateConnection newId now s A B := by
          simp [sendConnectionRequest, hAB, hB, hconn]
        rw [hs1]
        have hconnsC : (CreateConnection newId now s A B).conns
            = s.conns ++
              [{ ID := newId, RequesterID := A, AddresseeID := B
                 Status := StatusPending, CreatedAt := now
                 UpdatedAt := now }] := rfl
        have husersC : (CreateConnection newId now s A B).users = s.users := rfl
        generalize CreateConnection newId now s A B = sC at hconnsC husersC ⊢
        have hnil2 : s.conns.find? (connBetween A B) = none := hconn
        have hnil : s.conns.find? (connBetween B A) = none := by
          have h : connBetween B A = connBetween A B :=
            funext (connBetween_comm A B)
          rw [h]; exact hnil2
        have huA1 : GetUserByID sC A = some uA := by
          unfold GetUserByID; rw [husersC]; exact hA
        have huB1 : GetUserByID sC B = some uB := by
          unfold GetUserByID; rw [husersC]; exact hB
        have hgBA : GetConnection sC B A
            = some { ID := newId, RequesterID := A, AddresseeID := B
                     Status := StatusPending, CreatedAt := now
                     UpdatedAt := now } := by
          unfold GetConnection
          rw [hconnsC, List.find?_append, hnil]
          simp [connBetween]
        have hgAB : GetConnection sC A B
            = some { ID := newId, RequesterID := A, AddresseeID := B
                     Status := StatusPending, CreatedAt := now
                     UpdatedAt := now } := by
          unfold GetConnection
          rw [hconnsC, List.find?_append, hnil2]
          simp [connBetween]
        refine ⟨?_, ?_, ?_⟩
        · simp [sendConnectionRequest, hBA', huA1, hgBA]
        · simp [sendConnectionRequest, hAB, huB1, hgAB]
        · rw [hconnsC, List.countP_append]
          have h0 : s.conns.countP (connBetween A B) = 0 :=
            List.countP_eq_zero.mpr (List.find?_eq_none.mp hnil2)
          simp [h0, connBetween]

/-- Witness for C1 on a concrete two-user state. -/
theorem sendRequest_conflict_after_success_witness :
    sendConnectionRequest 11 6 (sendConnectionRequest 10 5 demoS0 1 2).2.1 2 1
      = (.error (.conflict "connection_exists"),
         (sendConnectionRequest 10 5 demoS0 1 2).2.1,
         [.getUserById 1, .getConnection 2 1])
    ∧ sendConnectionRequest 12 7 (sendConnectionRequest 10 5 demoS0 1 2).2.1 1 2
      = (.error (.conflict "connection_exists"),
         (sendConnectionRequest 10 5 demoS0 1 2).2.1,
         [.getUserById 2, .getConnection 1 2])
    ∧ ((sendConnectionRequest 10 5 demoS0 1 2).2.1).conns.countP
        (connBetween 1 2) = 1 :=
  sendRequest_conflict_after_success 10 5 11 6 12 7 demoS0 1 2 demoUserA rfl rfl

/-- C2: from a pending edge with requester `A` and addressee `B`, and no
reversed pending edge, the accept called by `B` naming requester `A`
succeeds and every `(A,B)` edge ends up accepted, while the accept called
by `A` naming requester `B` fails with 404 `request_not_found` and changes
nothing: the lookup matches only the exact `(requester, addressee)`
ordering with status pending.  The hypothesis `hchk` is the schema's
`CHECK (status IN ('pending','accepted'))` constraint. -/
theorem acceptRequest_directional
    (now now2 : Nat) (s : AppState) (A B : Nat) (c : UserConnection)
    (hc : c ∈ s.conns) (hreq : c.RequesterID = A) (haddr : c.AddresseeID = B)
    (hst : c.Status = StatusPending)
    (hchk : ∀ d ∈ s.conns, d.Status = StatusPending ∨ d.Status = StatusAccepted)
    (hrev : ∀ d ∈ s.conns,
      ¬(d.RequesterID = B ∧ d.AddresseeID = A ∧ d.Status = StatusPending)) :
    ((acceptConnectionRequest now s B A).1 = .ok ()
      ∧ ∀ d ∈ (acceptConnectionRequest now s B A).2.conns,
          d.RequesterID = A → d.AddresseeID = B → d.Status = StatusAccepted)
    ∧ acceptConnectionRequest now2 s A B
        = (.error (.notFound "request_not_found"), s) := by
  have hcnt : s.conns.countP (acceptPred A B) ≠ 0 := by
    have h1 : 0 < s.conns.countP (acceptPred A B) :=
      List.countP_pos_iff.mpr ⟨c, hc, by simp [acceptPred, hreq, haddr, hst]⟩
    omega
  have hstate : acceptConnectionRequest now s B A
      = (.ok (), { s with conns := s.conns.map (fun x =>
          if acceptPred A B x then
            { x with Status := StatusAccepted, UpdatedAt := now }
          else x) }) := by
    simp [acceptConnectionRequest, AcceptConnection, hcnt]
  refine ⟨⟨by rw [hstate], ?_⟩, ?_⟩
  · intro d hd hdr hda
    rw [hstate] at hd
    obtain ⟨x, hx, hxd⟩ := List.mem_map.mp hd
    by_cases hpx : acceptPred A B x = true
    · rw [if_pos hpx] at hxd
      rw [← hxd]
    · rw [if_neg hpx] at hxd
      subst hxd
      rcases hchk x hx with hpd | hacc
      · exact absurd (by simp [acceptPred, hdr, hda, hpd]) hpx
      · exact hacc
  · have h0 : s.conns.countP (acceptPred B A) = 0 := by
      rw [List.countP_eq_zero]
      intro d hd hbd
      simp [acceptPred, Bool.and_eq_true, beq_iff_eq] at hbd
      exact hrev d hd ⟨hbd.1.1, hbd.1.2, hbd.2⟩
    simp [acceptConnectionRequest, AcceptConnection, h0]

/-- Witness for C2 on the concrete pending state. -/
theorem acceptRequest_directional_witness :
    ((acceptConnectionRequest 9 demoPending 2 1).1 = .ok ()
      ∧ ∀ d ∈ (acceptConnectionRequest 9 demoPending 2 1).2.conns,
          d.RequesterID = 1 → d.AddresseeID = 2 → d.Status = StatusAccepted)
    ∧ acceptConnectionRequest 8 demoPending 1 2
        = (.error (.notFound "request_not_found"), demoPending) :=
  acceptRequest_directional 9 8 demoPending 1 2
    { ID := 7, RequesterID := 1, AddresseeID := 2, Status := StatusPending
      CreatedAt := 3, UpdatedAt := 3 }
    (by decide) rfl rfl rfl (by decide) (by decide)

/-- C6: connection removal treats the pair as unordered (swapping the
arguments gives the same outcome); when an accepted edge exists it
succeeds and afterwards no accepted edge between the pair remains, so a
repeated removal fails with 404 `friendship_not_found`; and whenever no
accepted edge exists between the pair — including when only a pending edge
exists — it fails with the same 404 `friendship_not_found` and changes
nothing. -/
theorem removeConnection_unordered
    (s : AppState) (u f : Nat) :
    removeConnection s u f = removeConnection s f u
    ∧ ((∃ c ∈ s.conns, removePred u f c = true) →
        (removeConnection s u f).1 = .ok ()
        ∧ (∀ d ∈ (removeConnection s u f).2.conns, ¬removePred u f d = true)
        ∧ removeConnection (removeConnection s u f).2 u f
            = (.error (.notFound "friendship_not_found"),
               (removeConnection s u f).2))
    ∧ ((∀ c ∈ s.conns, ¬removePred u f c = true) →
        removeConnection s u f
          = (.error (.notFound "friendship_not_found"), s)) := by
  refine ⟨?_, ?_, ?_⟩
  · have hp : removePred u f = removePred f u := by
      funext x
      simp [removePred, connBetween_comm]
    unfold removeConnection RemoveConnection
    rw [hp]
  · rintro ⟨c, hc, hpc⟩
    have hcnt : s.conns.countP (removePred u f) ≠ 0 := by
      have h1 : 0 < s.conns.countP (removePred u f) :=
        List.countP_pos_iff.mpr ⟨c, hc, hpc⟩
      omega
    have hstate : removeConnection s u f
        = (.ok (),
           { s with conns := s.conns.filter (fun x => !removePred u f x) }) := by
      simp [removeConnection, RemoveConnection, hcnt]
    refine ⟨by rw [hstate], ?_, ?_⟩
    · intro d hd
      rw [hstate] at hd
      have h2 := (List.mem_filter.mp hd).2
      simpa using h2
    · rw [hstate]
      have h0 : (List.filter (fun x => !removePred u f x) s.conns).countP
          (removePred u f) = 0 := by
        rw [List.countP_eq_zero]
        intro d hd
        have h2 := (List.mem_filter.mp hd).2
        simpa using h2
      simp [removeConnection, RemoveConnection, h0]
  · intro h
    have h0 : s.conns.countP (removePred u f) = 0 :=
      List.countP_eq_zero.mpr h
    simp [removeConnection, RemoveConnection, h0]

/-- Witness for C6 on the concrete accepted-friendship state. -/
theorem removeConnection_unordered_witness :
    removeConnection demoAccepted 1 2 = removeConnection demoAccepted 2 1
    ∧ (removeConnection demoAccepted 1 2).1 = .ok ()
    ∧ removeConnection (removeConnection demoAccepted 1 2).2 1 2
        = (.error (.notFound "friendship_not_found"),
           (removeConnection demoAccepted 1 2).2)
    ∧ removeConnection demoPending 1 2
        = (.error (.notFound "friendship_not_found"), demoPending) :=
  ⟨(removeConnection_unordered demoAccepted 1 2).1,
   ((removeConnection_unordered demoAccepted 1 2).2.1 (by decide)).1,
   ((removeConnection_unordered demoAccepted 1 2).2.1 (by decide)).2.2,
   (removeConnection_unordered demoPending 1 2).2.2 (by decide)⟩

/-- Splits a list with at least one element satisfying `p`, and at most one
by the pairwise hypothesis, around that unique element, and computes the
pointwise update there. -/
theorem countP_ne_zero_split {α : Type} (p : α → Bool) (f : α → α) :
    ∀ l : List α, l.countP p ≠ 0 →
      l.Pairwise (fun a b => ¬(p a = true ∧ p b = true)) →
      ∃ l₁ c l₂, l = l₁ ++ c :: l₂ ∧ p c = true
        ∧ l.map (fun x => if p x then f x else x) = l₁ ++ f c :: l₂ := by
  intro l
  induction l with
  | nil => intro h _; simp at h
  | cons x xs ih =>
    intro h hp
    rw [List.pairwise_cons] at hp
    by_cases hx : p x = true
    · refine ⟨[], x, xs, rfl, hx, ?_⟩
      have hxs : ∀ d ∈ xs, ¬p d = true := fun d hd hpd => hp.1 d hd ⟨hx, hpd⟩
      simp only [List.map_cons, if_pos hx, List.nil_append]
      congr 1
      have h2 : ∀ d ∈ xs, (if p d then f d else d) = d :=
        fun d hd => if_neg (hxs d hd)
      simpa using List.map_congr_left h2
    · have hxs : xs.countP p ≠ 0 := by
        rw [List.countP_cons] at h
        simpa [hx] using h
      obtain ⟨l₁, c, l₂, hsplit, hc, hmap⟩ := ih hxs hp.2
      exact ⟨x :: l₁, c, l₂, by simp [hsplit], hc,
        by simp only [List.map_cons, if_neg hx, hmap, List.cons_append]⟩

/-- C10: when the accept called by `B` naming requester `A` succeeds on a
state respecting the schema's `UNIQUE(requester_id, addressee_id)`
constraint, exactly one connection record is modified; it keeps its
identifier, requester, addressee and creation timestamp and changes only
its status (pending to accepted) and its update timestamp; every other
connection record and every user record is unchanged. -/
theorem acceptRequest_frame (now : Nat) (s : AppState) (A B : Nat)
    (huniq : s.conns.Pairwise (fun c d =>
      ¬(c.RequesterID = d.RequesterID ∧ c.AddresseeID = d.AddresseeID)))
    (hok : (acceptConnectionRequest now s B A).1 = .ok ()) :
    ∃ l₁ c l₂,
      s.conns = l₁ ++ c :: l₂
      ∧ c.RequesterID = A ∧ c.AddresseeID = B ∧ c.Status = StatusPending
      ∧ (acceptConnectionRequest now s B A).2.users = s.users
      ∧ (acceptConnectionRequest now s B A).2.conns
          = l₁ ++ { c with Status := StatusAccepted, UpdatedAt := now } :: l₂ := by
  by_cases hcnt : s.conns.countP (acceptPred A B) = 0
  · exfalso
    simp [acceptConnectionRequest, AcceptConnection, hcnt] at hok
  · have hstate : acceptConnectionRequest now s B A
        = (.ok (), { s with conns := s.conns.map (fun x =>
            if acceptPred A B x then
              { x with Status := StatusAccepted, UpdatedAt := now }
            else x) }) := by
      simp [acceptConnectionRequest, AcceptConnection, hcnt]
    have huniq2 : s.conns.Pairwise (fun a b =>
        ¬(acceptPred A B a = true ∧ acceptPred A B b = true)) := by
      refine huniq.imp ?_
      intro a b hab ⟨hpa, hpb⟩
      simp [acceptPred, Bool.and_eq_true, beq_iff_eq] at hpa hpb
      exact hab ⟨hpa.1.1.trans hpb.1.1.symm, hpa.1.2.trans hpb.1.2.symm⟩
    obtain ⟨l₁, c, l₂, hsplit, hpc, hmap⟩ :=
      countP_ne_zero_split (acceptPred A B)
        (fun x => { x with Status := StatusAccepted, UpdatedAt := now })
        s.conns hcnt huniq2
    simp [acceptPred, Bool.and_eq_true, beq_iff_eq] at hpc
    exact ⟨l₁, c, l₂, hsplit, hpc.1.1, hpc.1.2, hpc.2,
      by rw [hstate], by rw [hstate]; exact hmap⟩

/-- Witness for C10 on the concrete pending state. -/
theorem acceptRequest_frame_witness :
    ∃ l₁ c l₂,
      demoPending.conns = l₁ ++ c :: l₂
      ∧ c.RequesterID = 1 ∧ c.AddresseeID = 2 ∧ c.Status = StatusPending
      ∧ (acceptConnectionRequest 9 demoPending 2 1).2.users = demoPending.users
      ∧ (acceptConnectionRequest 9 demoPending 2 1).2.conns
          = l₁ ++ { c with Status := StatusAccepted, UpdatedAt := 9 } :: l₂ :=
  acceptRequest_frame 9 demoPending 1 2 (by decide) rfl

/-- C8 counterexample: the supplied limit 150 lies outside 1..100; the
handler silently uses the default 20 — not the clamp to the range boundary
(100), not the supplied value, and not a rejection: the request still
succeeds. -/
theorem searchLimit_out_of_range_not_clamped :
    searchLimit (some 150) = 20
    ∧ (20 : Nat) ≠ 100 ∧ (20 : Nat) ≠ 150
    ∧ searchUsers { users := [demoUserA], conns := [] } "ali" (some 150)
        = .ok [User.toPublic demoUserA] := by
  refine ⟨rfl, by decide, by decide, rfl⟩

/-- C8 amended: the effective limit defaults to 20 when no value is
supplied, equals a supplied value inside 1..100, and silently falls back to
the default 20 for any supplied value outside that range; the handler never
rejects a request because of the limit, and returns at most the effective
limit of results. -/
theorem searchLimit_spec :
    searchLimit none = 20
    ∧ (∀ n : Int, 0 < n → n ≤ 100 → searchLimit (some n) = n.toNat)
    ∧ (∀ n : Int, ¬(0 < n ∧ n ≤ 100) → searchLimit (some n) = 20)
    ∧ ∀ (s : AppState) (q : String) (p : Option Int), q ≠ "" →
        ∃ l, searchUsers s q p = .ok l ∧ l.length ≤ searchLimit p := by
  refine ⟨rfl, ?_, ?_, ?_⟩
  · intro n h1 h2
    simp [searchLimit, h1, h2]
  · intro n h
    have hb : (decide (0 < n) && decide (n ≤ 100)) = false := by
      rcases Decidable.not_and_iff_or_not.mp h with h1 | h1 <;> simp [h1]
    simp [searchLimit, hb]
  · intro s q p hq
    refine ⟨SearchUsers q (searchLimit p) s.users, by simp [searchUsers, hq], ?_⟩
    exact (List.length_take_le _ _)

/-- Witness for the amended C8 at concrete limits. -/
theorem searchLimit_spec_witness :
    searchLimit none = 20
    ∧ searchLimit (some 50) = 50
    ∧ searchLimit (some 150) = 20
    ∧ ∃ l, searchUsers demoS0 "ali" (some 50) = .ok l
        ∧ l.length ≤ searchLimit (some 50) :=
  ⟨searchLimit_spec.1,
   searchLimit_spec.2.1 50 (by decide) (by decide),
   searchLimit_spec.2.2.1 150 (by decide),
   searchLimit_spec.2.2.2 demoS0 "ali" (some 50) (by decide)⟩

/-- Unfolding of `likeMatch` when the pattern starts with the `%`
wildcard. -/
theorem likeMatch_pct_head (ps s : List Char) :
    likeMatch ('%' :: ps) s = tryDrops (likeMatch ps) s := by
  cases ps <;> cases s <;> simp [likeMatch]

/-- Unfolding of `likeMatch` on the empty string when the pattern starts
with an ordinary character. -/
theorem likeMatch_lit_nil (c : Char) (hp : c ≠ '%') (ps : List Char) :
    likeMatch (c :: ps) [] = false := by
  cases ps <;> simp [likeMatch, hp]

/-- Unfolding of `likeMatch` on a non-empty string when the pattern starts
with an ordinary (non-wildcard, non-escape) character. -/
theorem likeMatch_lit_cons (c : Char) (hp : c ≠ '%') (hb : c ≠ '\\')
    (hu : c ≠ '_') (ps : List Char) (x : Char) (s2 : List Char) :
    likeMatch (c :: ps) (x :: s2) = (x == c && likeMatch ps s2) := by
  cases ps <;> simp [likeMatch, hp, hb, hu]

/-- The pattern consisting of a single `%` matches every string. -/
theorem likeMatch_pct_all (s : List Char) : likeMatch ['%'] s = true := by
  induction s with
  | nil => decide
  | cons x s2 ih =>
    rw [likeMatch_pct_head]
    show (likeMatch [] (x :: s2) || tryDrops (likeMatch []) s2) = true
    rw [show tryDrops (likeMatch []) s2 = likeMatch ['%'] s2 from
      (likeMatch_pct_head [] s2).symm, ih]
    simp [likeMatch]

/-- For a metacharacter-free pattern `q`, the pattern `q ++ ['%']` matches
exactly the strings with `q` as a literal prefix: the `LIKE` prefix test of
the source agrees with the specification's literal prefix test. -/
theorem likeMatch_append_pct (q : List Char) (hq : cleanQ q) :
    ∀ s, likeMatch (q ++ ['%']) s = litStarts q s := by
  induction q with
  | nil =>
    intro s
    rw [show ([] : List Char) ++ ['%'] = ['%'] from rfl, likeMatch_pct_all]
    rfl
  | cons c q2 ih =>
    have hc := hq c (by simp)
    have hq2 : cleanQ q2 := fun d hd => hq d (by simp [hd])
    intro s
    rw [List.cons_append]
    cases s with
    | nil => rw [likeMatch_lit_nil c hc.1]; rfl
    | cons x s2 =>
      rw [likeMatch_lit_cons c hc.1 hc.2.2 hc.2.1, ih hq2 s2]
      rfl

/-- For a metacharacter-free pattern `q`, the pattern `'%' :: q ++ ['%']`
matches exactly the strings containing `q` literally: the `LIKE` substring
test of the source agrees with the specification's literal substring
test. -/
theorem likeMatch_pct_wrap (q : List Char) (hq : cleanQ q) :
    ∀ s, likeMatch ('%' :: (q ++ ['%'])) s = litContains q s := by
  intro s
  rw [likeMatch_pct_head]
  induction s with
  | nil =>
    show likeMatch (q ++ ['%']) [] = litContains q []
    rw [likeMatch_append_pct q hq]
    rfl
  | cons x s2 ih =>
    show (likeMatch (q ++ ['%']) (x :: s2)
        || tryDrops (likeMatch (q ++ ['%'])) s2) = litContains q (x :: s2)
    rw [likeMatch_append_pct q hq, ih]
    rfl

/-- For metacharacter-free queries the source's ranking `CASE` computes the
specification's tier. -/
theorem rank_eq_specTier (q : String) (hq : cleanQ (lower q.toList))
    (u : UserPublic) : rank q u = specTier q u := by
  have h1 : ∀ f : String,
      likeStarts q f = litStarts (lower q.toList) (lower f.toList) :=
    fun f => likeMatch_append_pct _ hq _
  have h2 : ∀ f : String,
      likeContains q f = litContains (lower q.toList) (lower f.toList) :=
    fun f => likeMatch_pct_wrap _ hq _
  simp only [rank, specTier, h1, h2]

/-- For metacharacter-free queries the source's `ORDER BY` key equals the
specification's ordering key. -/
theorem sortKey_eq_specKey (q : String) (hq : cleanQ (lower q.toList))
    (u : UserPublic) : sortKey q u = specKey q u := by
  simp only [sortKey, specKey, rank_eq_specTier q hq]

/-- C3 counterexample: with the query `%` (a `LIKE` wildcard, interpolated
unescaped into the pattern), the rows come back ordered by the code's
wildcard-based rank, which violates the claimed literal-tier ordering: a
user matching no literal tier (tier 4) precedes a literal-substring match
(tier 3). -/
theorem search_order_wildcard_cex :
    ¬ List.Sorted (specLE "%") (SearchUsers "%" 10 [demoPlain, demoPct]) := by
  decide

/-- C3 amended: for every query that is free of the `LIKE` metacharacters
`%`, `_` and `\` (after lowercasing), the search results are sorted by the
claimed order: ranking tier ascending (1 exact, 2 prefix, 3 substring),
then exact-username before exact-display-name, then ascending username
length, ascending display-name length, and lexicographic username. -/
theorem search_sorted_by_spec_order (q : String)
    (hq : cleanQ (lower q.toList)) (limit : Nat) (users : List User) :
    List.Sorted (specLE q) (SearchUsers q limit users) := by
  have hkey : ∀ u, sortKey q u = specKey q u := sortKey_eq_specKey q hq
  haveI : IsTotal UserPublic (sortLE q) :=
    ⟨fun a b => le_total (sortKey q a) (sortKey q b)⟩
  haveI : IsTrans UserPublic (sortLE q) :=
    ⟨fun _ _ _ h1 h2 => le_trans h1 h2⟩
  have hs : List.Sorted (sortLE q)
      (List.insertionSort (sortLE q)
        ((users.filter (searchWhere q)).map User.toPublic)) :=
    List.sorted_insertionSort (sortLE q) _
  have hs2 : List.Sorted (specLE q)
      (List.insertionSort (sortLE q)
        ((users.filter (searchWhere q)).map User.toPublic)) := by
    refine hs.imp ?_
    intro a b hab
    show specKey q a ≤ specKey q b
    rw [← hkey a, ← hkey b]
    exact hab
  exact List.Pairwise.sublist (List.take_sublist limit _) hs2

/-- Witness for the amended C3 on the specification's search scenario. -/
theorem search_sorted_by_spec_order_witness :
    List.Sorted (specLE "j") (SearchUsers "j" 10 demoSearchUsers) :=
  search_sorted_by_spec_order "j" (by decide) 10 demoSearchUsers

/-- C4 counterexample: the query `%` (a `LIKE` wildcard) returns a user
whose username and display name both lack `%` as a literal substring. -/
theorem search_wildcard_matches_nonsubstring :
    User.toPublic demoPlain ∈ SearchUsers "%" 10 [demoPlain]
    ∧ specMatch "%" demoPlain.Username demoPlain.DisplayName = false := by
  exact ⟨by decide, by decide⟩

/-- C4 amended: for every query free of the `LIKE` metacharacters `%`, `_`
and `\` (after lowercasing), every returned user has the query as a literal
case-insensitive substring of the username or display name, and — whenever
the number of matching rows is within the limit — every matching user is
returned. -/
theorem search_matches_literal_substring (q : String)
    (hq : cleanQ (lower q.toList)) (limit : Nat) (users : List User) :
    (∀ p ∈ SearchUsers q limit users,
        specMatch q p.Username p.DisplayName = true)
    ∧ ((users.filter (searchWhere q)).length ≤ limit →
        ∀ u ∈ users, specMatch q u.Username u.DisplayName = true →
          u.toPublic ∈ SearchUsers q limit users) := by
  have h2 : ∀ f : String,
      likeContains q f = litContains (lower q.toList) (lower f.toList) :=
    fun f => likeMatch_pct_wrap _ hq _
  have hmatch : ∀ u : User,
      searchWhere q u = specMatch q u.Username u.DisplayName := by
    intro u
    simp only [searchWhere, specMatch, h2]
  constructor
  · intro p hp
    have hp1 : p ∈ List.insertionSort (sortLE q)
        ((users.filter (searchWhere q)).map User.toPublic) :=
      List.mem_of_mem_take hp
    have hp2 := (List.mem_insertionSort (sortLE q)).mp hp1
    obtain ⟨u, hu, hup⟩ := List.mem_map.mp hp2
    have hw : searchWhere q u = true := (List.mem_filter.mp hu).2
    rw [hmatch u] at hw
    have hn : p.Username = u.Username := by rw [← hup]; rfl
    have hd : p.DisplayName = u.DisplayName := by rw [← hup]; rfl
    rw [hn, hd]
    exact hw
  · intro hlen u hu hum
    have hw : searchWhere q u = true := by rw [hmatch u]; exact hum
    have hmem : u.toPublic ∈
        (users.filter (searchWhere q)).map User.toPublic :=
      List.mem_map.mpr ⟨u, List.mem_filter.mpr ⟨hu, hw⟩, rfl⟩
    have hmem2 : u.toPublic ∈ List.insertionSort (sortLE q)
        ((users.filter (searchWhere q)).map User.toPublic) :=
      (List.mem_insertionSort (sortLE q)).mpr hmem
    have hlen2 : (List.insertionSort (sortLE q)
        ((users.filter (searchWhere q)).map User.toPublic)).length ≤ limit := by
      rw [List.length_insertionSort, List.length_map]
      exact hlen
    show u.toPublic ∈ SearchUsers q limit users
    unfold SearchUsers
    rw [List.take_of_length_le hlen2]
    exact hmem2

/-- Witness for the amended C4 on the specification's search scenario. -/
theorem search_matches_literal_substring_witness :
    (∀ p ∈ SearchUsers "j" 10 demoSearchUsers,
        specMatch "j" p.Username p.DisplayName = true)
    ∧ demoJohn.toPublic ∈ SearchUsers "j" 10 demoSearchUsers :=
  ⟨(search_matches_literal_substring "j" (by decide) 10 demoSearchUsers).1,
   (search_matches_literal_substring "j" (by decide) 10 demoSearchUsers).2
     (by decide) demoJohn (by decide) (by decide)⟩

end ConnectSphere
